import Mathlib

/-!
# s2-indexing-experiments: workload generator and insert strategies

A shallow embedding of `rand_geo.go` and `experiment_test.go`.

* The random generator `BenchRNG` is a stream of raw draws together with the
  number of draws already consumed; every Go method with receiver `*BenchRNG`
  becomes a function returning its result paired with the advanced generator.
* `float64` arithmetic, `math.Sin`, `math.Asin` and the functions of the
  `golang/geo` library are collaborators of the program: they are fields of
  `Arith` and `S2`, and the program is embedded over an arbitrary instance.
* A Go `map[uint64][]s2.LatLng` is a function from keys to optional lists.
* A run-time panic (slice index out of range) is the result `none`.
* `initBench` reads its three constants from a `BenchConfig` of natural
  numbers; `initBenchInt` is the same function over arbitrary integer constants.
-/

namespace S2Bench

/-! ## Random generator (`rand_geo.go`) -/

/-- The state of `BenchRNG`: `draws n` is the n-th value the seeded source
delivers, `pos` the number of values consumed so far. -/
structure BenchRNG where
  draws : Nat → Nat
  pos : Nat

/-- Embeds `NewBenchRNG(seed)`: a fresh generator over the stream that
`rand.NewSource(seed)` delivers; `source` stands for `rand.NewSource`. -/
def NewBenchRNG (source : Int → Nat → Nat) (seed : Int) : BenchRNG :=
  ⟨source seed, 0⟩

/-- Embeds `r.rng.Int63()`: the next raw draw, a non-negative 63-bit integer. -/
def BenchRNG.Int63 (r : BenchRNG) : Nat × BenchRNG :=
  (r.draws r.pos % 2 ^ 63, ⟨r.draws, r.pos + 1⟩)

/-- Embeds `randomBits(num)`: `uint64(r.rng.Int63()) & ((1 << num) - 1)` after capping
`num` at 63; the shift and the subtraction are `uint64` operations. -/
def BenchRNG.randomBits (r : BenchRNG) (num : Nat) : Nat × BenchRNG :=
  let num := if num > 63 then 63 else num
  let (d, r1) := r.Int63
  ((d % 2 ^ 64) &&& (((1 <<< num) % 2 ^ 64 + 2 ^ 64 - 1) % 2 ^ 64), r1)

/-- The value of the conversion `float64(n)` of an unsigned integer: `n`
rounded to 53 significant bits, ties to even. -/
def float64OfUint64 (n : Nat) : ℚ :=
  let e := Nat.log2 n + 1 - 53
  let q := n / 2 ^ e
  let rem := n % 2 ^ e
  let half := 2 ^ e / 2
  let q1 := if half < rem ∨ (rem = half ∧ 0 < e ∧ q % 2 = 1) then q + 1 else q
  ((q1 * 2 ^ e : Nat) : ℚ)

/-- The value of `math.Ldexp(frac, exp)`, `frac × 2^exp`, which is exact as long
as the result neither overflows nor falls below the normal range. -/
def Ldexp (frac : ℚ) (exp : Int) : ℚ :=
  frac * (2 : ℚ) ^ exp

/-- The constant `randomFloatBits` of `randomFloat64`. -/
def randomFloatBits : Nat := 53

/-- Embeds `randomFloat64()`: `math.Ldexp(float64(r.randomBits(53)), -53)`. -/
def BenchRNG.randomFloat64 (r : BenchRNG) : ℚ × BenchRNG :=
  let (m, r1) := r.randomBits randomFloatBits
  (Ldexp (float64OfUint64 m) (-(randomFloatBits : Int)), r1)

/-! ## Cell keys as bytes (`experiment_test.go`) -/

/-- Embeds `binary.LittleEndian.PutUint64(b, v)` on a fresh 8-byte slice: `b[0] = byte(v)`,
`b[1] = byte(v >> 8)`, up to `b[7] = byte(v >> 56)`. -/
def PutUint64LittleEndian (v : Nat) : List Nat :=
  [v % 256, (v >>> 8) % 256, (v >>> 16) % 256, (v >>> 24) % 256,
   (v >>> 32) % 256, (v >>> 40) % 256, (v >>> 48) % 256, (v >>> 56) % 256]

/-- Embeds `cellToBytes(id)`: the bytes written by `binary.LittleEndian.PutUint64(b, uint64(id))`.
An `s2.CellID` is a `uint64`; both are embedded as `Nat` and the conversion
between them is the identity. -/
def cellToBytes (id : Nat) : List Nat :=
  PutUint64LittleEndian id

/-! ## Collaborators: `float64` arithmetic and the `golang/geo` library -/

/-- The `float64` operations the generator uses. `float q` is the `float64`
whose value is the rational `q` (the constants `-1`, `1`, `2`, `0` and the
results of `randomFloat64`, all exactly representable). -/
structure Arith (F : Type) where
  float : ℚ → F
  add : F → F → F
  sub : F → F → F
  mul : F → F → F
  ge : F → F → Bool
  gt : F → F → Bool
  min : F → F → F
  max : F → F → F
  Sin : F → F
  Asin : F → F
  Pi : F

/-- Embeds `r1.Interval` and `s1.Interval`: a pair of endpoints. -/
structure Interval (F : Type) where
  Lo : F
  Hi : F

/-- Embeds `s2.LatLng`: latitude and longitude, in radians. -/
structure LatLng (F : Type) where
  Lat : F
  Lng : F

/-- Embeds `s2.Rect`: a latitude interval and a longitude interval. -/
structure Rect (F : Type) where
  Lat : Interval F
  Lng : Interval F

/-- The functions of `golang/geo/s2` that the program calls, over points of
type `Point`; cell identifiers are 64-bit unsigned integers and the level of
`Parent` is a Go `int`. -/
structure S2 (F Point : Type) where
  PointFromCoords : F → F → F → Point
  LatLngFromPoint : Point → LatLng F
  Normalized : LatLng F → LatLng F
  PointFromLatLng : LatLng F → Point
  CellIDFromLatLng : LatLng F → Nat
  Parent : Nat → Int → Nat

/-- Embeds `s1.Interval.Length()` of `golang/geo`: `Hi - Lo` when that is not negative,
otherwise `Hi - Lo + 2π` when that is positive, otherwise `-1`. -/
def Interval.Length {F : Type} (A : Arith F) (i : Interval F) : F :=
  let l := A.sub i.Hi i.Lo
  if A.ge l (A.float 0) then l
  else
    let l := A.add l (A.mul (A.float 2) A.Pi)
    if A.gt l (A.float 0) then l else A.float (-1)

/-- Exact arithmetic in an ordered field `K`, with given sine, arcsine and π. -/
def exactArith (K : Type) [LinearOrderedField K] (sin asin : K → K) (pi : K) : Arith K where
  float q := (q : K)
  add a b := a + b
  sub a b := a - b
  mul a b := a * b
  ge a b := decide (b ≤ a)
  gt a b := decide (b < a)
  min a b := Min.min a b
  max a b := Max.max a b
  Sin := sin
  Asin := asin
  Pi := pi

/-! ## Sampling (`rand_geo.go`) -/

section Sampling
variable {F Point : Type}

/-- Embeds `randomUniformFloat64(min, max)`: `min + r.randomFloat64()*(max-min)`. -/
def BenchRNG.randomUniformFloat64 (A : Arith F) (r : BenchRNG) (min max : F) : F × BenchRNG :=
  let (x, r1) := r.randomFloat64
  (A.add min (A.mul (A.float x) (A.sub max min)), r1)

/-- Embeds `randomPoint()`: three draws in `[-1, 1)`, taken left to right, handed to
`s2.PointFromCoords`. -/
def BenchRNG.randomPoint (A : Arith F) (G : S2 F Point) (r : BenchRNG) : Point × BenchRNG :=
  let (x, r1) := r.randomUniformFloat64 A (A.float (-1)) (A.float 1)
  let (y, r2) := r1.randomUniformFloat64 A (A.float (-1)) (A.float 1)
  let (z, r3) := r2.randomUniformFloat64 A (A.float (-1)) (A.float 1)
  (G.PointFromCoords x y z, r3)

/-- Embeds `randomRect()`: the bounding rectangle of two random points. -/
def BenchRNG.randomRect (A : Arith F) (G : S2 F Point) (r : BenchRNG) : Rect F × BenchRNG :=
  let (p1, r1) := r.randomPoint A G
  let ll1 := G.LatLngFromPoint p1
  let (p2, r2) := r1.randomPoint A G
  let ll2 := G.LatLngFromPoint p2
  let lat_min := A.min ll1.Lat ll2.Lat
  let lat_max := A.max ll1.Lat ll2.Lat
  let lng_min := A.min ll1.Lng ll2.Lng
  let lng_max := A.max ll1.Lng ll2.Lng
  (⟨⟨lat_min, lat_max⟩, ⟨lng_min, lng_max⟩⟩, r2)

/-- The latitude `lat` and longitude `lng` that `samplePointFromRect` computes,
before they are normalised and turned into a point. -/
def BenchRNG.sampleLatLngFromRect (A : Arith F) (r : BenchRNG) (rect : Rect F) :
    LatLng F × BenchRNG :=
  let sinLo := A.Sin rect.Lat.Lo
  let sinHi := A.Sin rect.Lat.Hi
  let (u, r1) := r.randomUniformFloat64 A sinLo sinHi
  let lat := A.Asin u
  let (x, r2) := r1.randomFloat64
  let lng := A.add rect.Lng.Lo (A.mul (A.float x) (rect.Lng.Length A))
  (⟨lat, lng⟩, r2)

/-- Embeds `samplePointFromRect(rect)`: `s2.PointFromLatLng(s2.LatLng{lat, lng}.Normalized())`. -/
def BenchRNG.samplePointFromRect (A : Arith F) (G : S2 F Point) (r : BenchRNG) (rect : Rect F) :
    Point × BenchRNG :=
  let (ll, r1) := r.sampleLatLngFromRect A rect
  (G.PointFromLatLng (G.Normalized ll), r1)

/-! ## Benchmark setup (`experiment_test.go`) -/

/-- The benchmarking constants `B_S2_LEVEL`, `B_NUM_REGIONS`, `B_NUM_INSERTS`. -/
structure BenchConfig where
  B_S2_LEVEL : Nat
  B_NUM_REGIONS : Nat
  B_NUM_INSERTS : Nat

/-- The constants as configured in the source: level 24, 100 regions, 1,000,000 inserts. -/
def benchConstants : BenchConfig := ⟨24, 100, 1000000⟩

/-- The loop of `sampleCoordinates`, with `n` iterations left. -/
def BenchRNG.sampleCoordinatesLoop (A : Arith F) (G : S2 F Point) (region : Rect F) :
    Nat → List (LatLng F) → BenchRNG → List (LatLng F) × BenchRNG
  | 0, coords, r => (coords, r)
  | n + 1, coords, r =>
    let (p, r1) := r.samplePointFromRect A G region
    BenchRNG.sampleCoordinatesLoop A G region n (coords ++ [G.LatLngFromPoint p]) r1

/-- Embeds `sampleCoordinates(region, num)`: `num` sampled points, converted to `LatLng`. -/
def BenchRNG.sampleCoordinates (A : Arith F) (G : S2 F Point) (r : BenchRNG) (region : Rect F)
    (num : Nat) : List (LatLng F) × BenchRNG :=
  BenchRNG.sampleCoordinatesLoop A G region num [] r

/-- Embeds `indexCoordinates(coords)`: the level-`B_S2_LEVEL` parent of each coordinate's cell;
the constant `B_S2_LEVEL` is a parameter. -/
def indexCoordinates (G : S2 F Point) (B_S2_LEVEL : Int) (coords : List (LatLng F)) : List Nat :=
  let level := B_S2_LEVEL
  coords.foldl (fun cells coord => cells ++ [G.Parent (G.CellIDFromLatLng coord) level]) []

/-- The loop of `initBench`, with `n` regions left. -/
def initBenchLoop (A : Arith F) (G : S2 F Point) (B_S2_LEVEL : Int) (numPerRegion : Nat) :
    Nat → List (LatLng F) → List Nat → BenchRNG → (List (LatLng F) × List Nat) × BenchRNG
  | 0, coords, indices, r => ((coords, indices), r)
  | n + 1, coords, indices, r =>
    let (region, r1) := r.randomRect A G
    let (_coords, r2) := r1.sampleCoordinates A G region numPerRegion
    let _indices := indexCoordinates G B_S2_LEVEL _coords
    initBenchLoop A G B_S2_LEVEL numPerRegion n (coords ++ _coords) (indices ++ _indices) r2

/-- Embeds `initBench(r)`: the coordinates and cell keys of the workload, and the
generator as the call leaves it. -/
def initBench (A : Arith F) (G : S2 F Point) (c : BenchConfig) (r : BenchRNG) :
    (List (LatLng F) × List Nat) × BenchRNG :=
  let numPerRegion := c.B_NUM_INSERTS / c.B_NUM_REGIONS
  initBenchLoop A G c.B_S2_LEVEL numPerRegion c.B_NUM_REGIONS [] [] r

/-- The benchmarking constants as arbitrary Go integer constants, negative
values included. -/
structure IntConfig where
  B_S2_LEVEL : Int
  B_NUM_REGIONS : Int
  B_NUM_INSERTS : Int

/-- Embeds `initBench(r)` over arbitrary integer constants. The quotient
`B_NUM_INSERTS / B_NUM_REGIONS` truncates toward zero, and a loop
`for i := 0; i < n; i += 1` runs `n` times when `n` is positive and not at all
otherwise. The result is `none` in the one case without a result:
`B_NUM_REGIONS = 0` makes the quotient a division by zero. -/
def initBenchInt (A : Arith F) (G : S2 F Point) (c : IntConfig) (r : BenchRNG) :
    Option ((List (LatLng F) × List Nat) × BenchRNG) :=
  if c.B_NUM_REGIONS = 0 then none
  else
    let numPerRegion := Int.tdiv c.B_NUM_INSERTS c.B_NUM_REGIONS
    some (initBenchLoop A G c.B_S2_LEVEL numPerRegion.toNat c.B_NUM_REGIONS.toNat [] [] r)

end Sampling

/-! ## Insert strategies (`experiment_test.go`) -/

section Insert
variable {V : Type}

/-- A Go `map[uint64][]V`: absent keys are `none`. -/
abbrev Table (V : Type) := Nat → Option (List V)

/-- Embeds `make(map[uint64][]V)`. -/
def Table.empty : Table V := fun _ => none

/-- Embeds `table[index] = vs`. -/
def Table.set (t : Table V) (index : Nat) (vs : List V) : Table V :=
  fun k => if k = index then some vs else t k

/-- The value of the expression `table[index]`: the zero value (a nil slice)
when the key is absent. -/
def Table.at (t : Table V) (index : Nat) : List V :=
  (t index).getD []

/-- The loop of `hashmapInsert` from position `i` on; `indices[i]` out of range
panics. -/
def hashmapInsertLoop (indices : List Nat) : List V → Nat → Table V → Option (Table V)
  | [], _, table => some table
  | coord :: rest, i, table =>
    match indices[i]? with
    | none => none
    | some id =>
      let index := id
      let table := if (table index).isSome then table else table.set index []
      let table := table.set index (table.at index ++ [coord])
      hashmapInsertLoop indices rest (i + 1) table

/-- Embeds `hashmapInsert(coords, indices)`. -/
def hashmapInsert (coords : List V) (indices : List Nat) : Option (Table V) :=
  hashmapInsertLoop indices coords 0 Table.empty

/-- The part of `iradix.Tree` (hashicorp/go-immutable-radix) that `radixInsert`
uses. The tree is immutable: `Insert` returns the new tree next to the previous
value and the update flag, and leaves its receiver as it was. -/
structure IRadix (T V : Type) where
  New : T
  Get : T → List Nat → Option V
  Insert : T → List Nat → V → T × Option V × Bool

/-- The loop of `radixInsert` from position `i` on. Both calls of `rt.Insert`
are expression statements: their three results are dropped and `rt` is never
assigned again. -/
def radixInsertLoop {T : Type} (R : IRadix T (List V)) (indices : List Nat) (rt : T) :
    List V → Nat → Option T
  | [], _ => some rt
  | coord :: rest, i =>
    match indices[i]? with
    | none => none
    | some id =>
      let index := cellToBytes id
      match R.Get rt index with
      | some group =>
        let _ := R.Insert rt index (group ++ [coord])
        radixInsertLoop R indices rt rest (i + 1)
      | none =>
        let _ := R.Insert rt index [coord]
        radixInsertLoop R indices rt rest (i + 1)

/-- Embeds `radixInsert(coords, indices)`. -/
def radixInsert {T : Type} (R : IRadix T (List V)) (coords : List V) (indices : List Nat) :
    Option T :=
  radixInsertLoop R indices R.New coords 0

/-- A reference immutable tree: a function from byte strings to values. -/
def funRadix (V : Type) : IRadix (List Nat → Option V) V where
  New := fun _ => none
  Get t k := t k
  Insert t k v := (fun k1 => if k1 = k then some v else t k1, t k, (t k).isSome)

/-- The `coords[i]` with `indices[i] = k`, in increasing `i`. -/
def valuesAt (coords : List V) (indices : List Nat) (k : Nat) : List V :=
  (List.range coords.length).filterMap
    (fun i => if indices[i]? = some k then coords[i]? else none)

end Insert

/-! ## The workload as a function of the raw draws

These definitions follow the description of the draw order: each region takes
the x, y, z draws of corner A, the x, y, z draws of corner B, and then, per
coordinate, a latitude-sine draw followed by a longitude draw. -/

section DrawOrder
variable {F Point : Type}

/-- The value in `[0, 1)` made from one raw draw: its low 53 bits times `2^-53`. -/
def unitOfDraw (d : Nat) : ℚ :=
  (((d % 2 ^ 63) % 2 ^ 53 : Nat) : ℚ) / 2 ^ 53

/-- The value in `[min, max)` made from one raw draw. -/
def uniformOfDraw (A : Arith F) (d : Nat) (min max : F) : F :=
  A.add min (A.mul (A.float (unitOfDraw d)) (A.sub max min))

/-- A corner point made from its x, y and z draws. -/
def pointOfDraws (A : Arith F) (G : S2 F Point) (dx dy dz : Nat) : Point :=
  G.PointFromCoords (uniformOfDraw A dx (A.float (-1)) (A.float 1))
    (uniformOfDraw A dy (A.float (-1)) (A.float 1))
    (uniformOfDraw A dz (A.float (-1)) (A.float 1))

/-- The region made from the draws of corner A and of corner B. -/
def rectOfDraws (A : Arith F) (G : S2 F Point) (ax ay az bx bY bz : Nat) : Rect F :=
  let ll1 := G.LatLngFromPoint (pointOfDraws A G ax ay az)
  let ll2 := G.LatLngFromPoint (pointOfDraws A G bx bY bz)
  ⟨⟨A.min ll1.Lat ll2.Lat, A.max ll1.Lat ll2.Lat⟩, ⟨A.min ll1.Lng ll2.Lng, A.max ll1.Lng ll2.Lng⟩⟩

/-- The latitude and longitude made from a latitude-sine draw and a longitude draw. -/
def latLngOfDraws (A : Arith F) (rect : Rect F) (dLat dLng : Nat) : LatLng F :=
  ⟨A.Asin (uniformOfDraw A dLat (A.Sin rect.Lat.Lo) (A.Sin rect.Lat.Hi)),
   A.add rect.Lng.Lo (A.mul (A.float (unitOfDraw dLng)) (rect.Lng.Length A))⟩

/-- The coordinate made from a latitude-sine draw and a longitude draw. -/
def coordOfDraws (A : Arith F) (G : S2 F Point) (rect : Rect F) (dLat dLng : Nat) : LatLng F :=
  G.LatLngFromPoint (G.PointFromLatLng (G.Normalized (latLngOfDraws A rect dLat dLng)))

/-- The region whose six corner draws start at draw number `base`. -/
def regionAt (A : Arith F) (G : S2 F Point) (draws : Nat → Nat) (base : Nat) : Rect F :=
  rectOfDraws A G (draws base) (draws (base + 1)) (draws (base + 2))
    (draws (base + 3)) (draws (base + 4)) (draws (base + 5))

/-- Coordinate `j` of the region whose draws start at draw number `base`. -/
def coordAt (A : Arith F) (G : S2 F Point) (draws : Nat → Nat) (base j : Nat) : LatLng F :=
  coordOfDraws A G (regionAt A G draws base)
    (draws (base + 6 + 2 * j)) (draws (base + 6 + 2 * j + 1))

/-- The cell key of a coordinate at a level. -/
def keyOf (G : S2 F Point) (level : Int) (coord : LatLng F) : Nat :=
  G.Parent (G.CellIDFromLatLng coord) level

/-- The workload read off the draws from number `p0` on: region `i` starts at
draw number `p0 + i·(6 + 2k)`, where `k` is the number of coordinates per region. -/
def workloadOfDraws (A : Arith F) (G : S2 F Point) (c : BenchConfig) (draws : Nat → Nat)
    (p0 : Nat) : List (LatLng F) × List Nat :=
  let k := c.B_NUM_INSERTS / c.B_NUM_REGIONS
  let coords := (List.range c.B_NUM_REGIONS).flatMap
    (fun i => (List.range k).map (fun j => coordAt A G draws (p0 + i * (6 + 2 * k)) j))
  (coords, coords.map (keyOf G c.B_S2_LEVEL))

end DrawOrder

/-! ## A concrete instance -/

/-- A geometry over rational coordinates in which a point is its coordinate
triple; together with `exactArith ℚ` it instantiates the program at concrete
inputs. -/
def planeS2 : S2 ℚ (ℚ × ℚ × ℚ) where
  PointFromCoords x y z := (x, y, z)
  LatLngFromPoint p := ⟨p.2.2, p.1⟩
  Normalized ll := ll
  PointFromLatLng ll := (ll.Lng, 0, ll.Lat)
  CellIDFromLatLng ll := (ll.Lat.num.natAbs + ll.Lng.num.natAbs) % 2 ^ 64
  Parent id _ := id

/-- Exact rational arithmetic with the identity in place of sine and arcsine. -/
def planeArith : Arith ℚ := exactArith ℚ id id 3

/-- A seeded source of draws for concrete instances. -/
def affineSource (seed : Int) (n : Nat) : Nat :=
  (seed.natAbs + 1) * (6364136223846793005 * n + 1442695040888963407) % 2 ^ 63

/-! ## Auxiliary facts -/

theorem randomBits_eq (r : BenchRNG) (num : Nat) (h : num ≤ 63) :
    (r.randomBits num).1 = (r.draws r.pos % 2 ^ 63) % 2 ^ num := by
  have hn : ¬ num > 63 := by omega
  simp only [BenchRNG.randomBits, BenchRNG.Int63, hn, if_false]
  have h1 : (1 <<< num) = 2 ^ num := by simp [Nat.shiftLeft_eq]
  have h2 : 2 ^ num < 2 ^ 64 := Nat.pow_lt_pow_right (by norm_num) (by omega)
  have h3 : 0 < 2 ^ num := Nat.pos_pow_of_pos _ (by norm_num)
  rw [h1, Nat.mod_eq_of_lt h2]
  have h4 : (2 ^ num + 2 ^ 64 - 1) % 2 ^ 64 = 2 ^ num - 1 := by
    have : 2 ^ num + 2 ^ 64 - 1 = (2 ^ num - 1) + 2 ^ 64 := by omega
    rw [this, Nat.add_mod_right, Nat.mod_eq_of_lt (by omega)]
  rw [h4, Nat.and_pow_two_sub_one_eq_mod]
  have h5 : r.draws r.pos % 2 ^ 63 < 2 ^ 64 :=
    lt_trans (Nat.mod_lt _ (by norm_num)) (by norm_num)
  rw [Nat.mod_eq_of_lt h5]

theorem float64OfUint64_exact (n : Nat) (h : n < 2 ^ 53) : float64OfUint64 n = (n : ℚ) := by
  have he : Nat.log2 n + 1 - 53 = 0 := by
    rcases Nat.eq_zero_or_pos n with h0 | h0
    · subst h0; simp [Nat.log2]
    · have := (Nat.log2_lt (by omega : n ≠ 0)).2 h
      omega
  simp [float64OfUint64, he, Nat.mod_one]

theorem randomFloat64_eq (r : BenchRNG) :
    r.randomFloat64 =
      ((((r.draws r.pos % 2 ^ 63) % 2 ^ 53 : Nat) : ℚ) / 2 ^ 53, ⟨r.draws, r.pos + 1⟩) := by
  have hb := randomBits_eq r 53 (by norm_num)
  have hlt : (r.draws r.pos % 2 ^ 63) % 2 ^ 53 < 2 ^ 53 := Nat.mod_lt _ (by norm_num)
  have hs : (r.randomBits 53).2 = ⟨r.draws, r.pos + 1⟩ := rfl
  have hp : r.randomBits 53 = ((r.draws r.pos % 2 ^ 63) % 2 ^ 53, ⟨r.draws, r.pos + 1⟩) :=
    Prod.ext hb hs
  simp only [BenchRNG.randomFloat64, randomFloatBits, hp, Ldexp, float64OfUint64_exact _ hlt]
  congr 1
  rw [zpow_neg, div_eq_mul_inv]
  norm_cast

section InsertFacts
variable {V : Type}

theorem valuesAt_cons (c : V) (cs : List V) (id : Nat) (ids : List Nat) (k : Nat) :
    valuesAt (c :: cs) (id :: ids) k = if id = k then c :: valuesAt cs ids k else valuesAt cs ids k := by
  simp only [valuesAt, List.length_cons, List.range_succ_eq_map, List.filterMap_cons,
    List.filterMap_map]
  by_cases h : id = k <;> simp [h, Function.comp_def]

theorem hashmapInsertLoop_spec (indices : List Nat) (rest : List V) :
    ∀ (i : Nat) (table : Table V), i + rest.length ≤ indices.length →
      ∃ t, hashmapInsertLoop indices rest i table = some t ∧
        ∀ k, t k = if (valuesAt rest (indices.drop i) k).isEmpty then table k
                   else some (table.at k ++ valuesAt rest (indices.drop i) k) := by
  induction rest with
  | nil =>
    intro i table _
    exact ⟨table, rfl, fun k => by simp [valuesAt]⟩
  | cons coord rest ih =>
    intro i table h
    simp only [List.length_cons] at h
    have hi : i < indices.length := by omega
    have hget : indices[i]? = some indices[i] := List.getElem?_eq_getElem hi
    have hdrop : indices.drop i = indices[i] :: indices.drop (i + 1) := List.drop_eq_getElem_cons hi
    obtain ⟨t, ht, hspec⟩ := ih (i + 1)
      ((if (table indices[i]).isSome then table else table.set indices[i] []).set indices[i]
        ((if (table indices[i]).isSome then table else table.set indices[i] []).at indices[i]
          ++ [coord])) (by omega)
    refine ⟨t, ?_, ?_⟩
    · simp only [hashmapInsertLoop, hget]
      exact ht
    · intro k
      rw [hspec k, hdrop, valuesAt_cons]
      have hat : (if (table indices[i]).isSome then table else table.set indices[i] []).at indices[i]
          = table.at indices[i] := by
        cases hti : table indices[i] <;> simp [Table.at, Table.set, hti]
      rw [hat]
      by_cases hk : indices[i] = k
      · subst hk
        simp only [if_true, Table.set, Table.at]
        cases hv : valuesAt rest (List.drop (i + 1) indices) indices[i] <;> simp
      · have hk2 : ¬ k = indices[i] := fun h => hk h.symm
        simp only [hk, if_false, Table.set, Table.at, hk2]
        cases hti : table indices[i] <;> simp [hti, Table.set, hk2]

theorem mem_valuesAt (coords : List V) :
    ∀ (indices : List Nat) (k : Nat) (c : V),
      c ∈ valuesAt coords indices k ↔
        ∃ i, i < coords.length ∧ indices[i]? = some k ∧ coords[i]? = some c := by
  intro indices k c
  simp only [valuesAt, List.mem_filterMap, List.mem_range]
  constructor
  · rintro ⟨i, hi, h⟩
    by_cases hk : indices[i]? = some k
    · rw [if_pos hk] at h
      exact ⟨i, hi, hk, h⟩
    · rw [if_neg hk] at h
      cases h
  · rintro ⟨i, hi, hk, hc⟩
    exact ⟨i, hi, by rw [if_pos hk]; exact hc⟩

theorem valuesAt_isEmpty (coords : List V) (indices : List Nat) (k : Nat) :
    (valuesAt coords indices k).isEmpty = false ↔
      ∃ i, i < coords.length ∧ indices[i]? = some k := by
  constructor
  · intro h
    cases hv : valuesAt coords indices k with
    | nil => rw [hv] at h; simp at h
    | cons c cs =>
      have hc : c ∈ valuesAt coords indices k := by rw [hv]; exact List.mem_cons_self _ _
      obtain ⟨i, hi, hk, _⟩ := (mem_valuesAt coords indices k c).1 hc
      exact ⟨i, hi, hk⟩
  · rintro ⟨i, hi, hk⟩
    have hc : coords[i] ∈ valuesAt coords indices k :=
      (mem_valuesAt coords indices k _).2 ⟨i, hi, hk, List.getElem?_eq_getElem hi⟩
    cases hv : valuesAt coords indices k with
    | nil => rw [hv] at hc; cases hc
    | cons c cs => rfl

theorem hashmapInsert_table (coords : List V) (indices : List Nat)
    (h : coords.length ≤ indices.length) :
    ∃ table, hashmapInsert coords indices = some table ∧
      ∀ k, table k = if (valuesAt coords indices k).isEmpty then none
                     else some (valuesAt coords indices k) := by
  obtain ⟨t, ht, hspec⟩ := hashmapInsertLoop_spec indices coords 0 Table.empty (by omega)
  refine ⟨t, ht, fun k => ?_⟩
  rw [hspec k]
  simp [Table.empty, Table.at]

end InsertFacts

section GeneratorFacts
variable {F Point : Type}

theorem randomUniformFloat64_eq (A : Arith F) (draws : Nat → Nat) (p : Nat) (min max : F) :
    BenchRNG.randomUniformFloat64 A ⟨draws, p⟩ min max =
      (uniformOfDraw A (draws p) min max, ⟨draws, p + 1⟩) := by
  simp only [BenchRNG.randomUniformFloat64, randomFloat64_eq, uniformOfDraw, unitOfDraw]

theorem randomPoint_eq (A : Arith F) (G : S2 F Point) (draws : Nat → Nat) (p : Nat) :
    BenchRNG.randomPoint A G ⟨draws, p⟩ =
      (pointOfDraws A G (draws p) (draws (p + 1)) (draws (p + 2)), ⟨draws, p + 3⟩) := by
  simp only [BenchRNG.randomPoint, randomUniformFloat64_eq, pointOfDraws]

theorem randomRect_eq (A : Arith F) (G : S2 F Point) (draws : Nat → Nat) (p : Nat) :
    BenchRNG.randomRect A G ⟨draws, p⟩ = (regionAt A G draws p, ⟨draws, p + 6⟩) := by
  simp only [BenchRNG.randomRect, randomPoint_eq, regionAt, rectOfDraws]

theorem sampleLatLngFromRect_eq (A : Arith F) (draws : Nat → Nat) (p : Nat) (rect : Rect F) :
    BenchRNG.sampleLatLngFromRect A ⟨draws, p⟩ rect =
      (latLngOfDraws A rect (draws p) (draws (p + 1)), ⟨draws, p + 2⟩) := by
  simp only [BenchRNG.sampleLatLngFromRect, randomUniformFloat64_eq, randomFloat64_eq,
    latLngOfDraws, unitOfDraw]

theorem samplePointFromRect_eq (A : Arith F) (G : S2 F Point) (draws : Nat → Nat) (p : Nat)
    (rect : Rect F) :
    BenchRNG.samplePointFromRect A G ⟨draws, p⟩ rect =
      (G.PointFromLatLng (G.Normalized (latLngOfDraws A rect (draws p) (draws (p + 1)))),
        ⟨draws, p + 2⟩) := by
  simp only [BenchRNG.samplePointFromRect, sampleLatLngFromRect_eq]

theorem sampleCoordinatesLoop_eq (A : Arith F) (G : S2 F Point) (region : Rect F)
    (draws : Nat → Nat) (n : Nat) :
    ∀ (coords : List (LatLng F)) (p : Nat),
      BenchRNG.sampleCoordinatesLoop A G region n coords ⟨draws, p⟩ =
        (coords ++ (List.range n).map
          (fun j => coordOfDraws A G region (draws (p + 2 * j)) (draws (p + 2 * j + 1))),
         ⟨draws, p + 2 * n⟩) := by
  induction n with
  | zero => intro coords p; simp [BenchRNG.sampleCoordinatesLoop]
  | succ n ih =>
    intro coords p
    simp only [BenchRNG.sampleCoordinatesLoop, samplePointFromRect_eq, ih,
      List.range_succ_eq_map, List.map_cons, List.map_map, List.append_assoc,
      List.singleton_append]
    refine Prod.ext ?_ ?_
    · simp only [coordOfDraws, Nat.mul_zero, Nat.add_zero]
      congr 2
      apply List.map_congr_left
      intro j _
      simp only [Function.comp, Nat.succ_eq_add_one]
      have h1 : p + 2 + 2 * j = p + 2 * (j + 1) := by ring
      rw [h1]
    · simp only
      congr 1
      ring

theorem indexCoordinates_eq (G : S2 F Point) (level : Int) (coords : List (LatLng F)) :
    indexCoordinates G level coords = coords.map (keyOf G level) := by
  have h : ∀ (l acc : List (LatLng F)) (cells : List Nat),
      l.foldl (fun cells coord => cells ++ [G.Parent (G.CellIDFromLatLng coord) level])
        cells = cells ++ l.map (keyOf G level) := by
    intro l
    induction l with
    | nil => intro _ cells; simp
    | cons x xs ih => intro acc cells; simp [List.foldl_cons, ih acc, keyOf]
  simpa [indexCoordinates] using h coords [] []

theorem initBenchLoop_eq (A : Arith F) (G : S2 F Point) (level : Int) (k : Nat)
    (draws : Nat → Nat) (n : Nat) :
    ∀ (coords : List (LatLng F)) (indices : List Nat) (p : Nat),
      initBenchLoop A G level k n coords indices ⟨draws, p⟩ =
        ((coords ++ (List.range n).flatMap
            (fun i => (List.range k).map (fun j => coordAt A G draws (p + i * (6 + 2 * k)) j)),
          indices ++ ((List.range n).flatMap
            (fun i => (List.range k).map
              (fun j => coordAt A G draws (p + i * (6 + 2 * k)) j))).map (keyOf G level)),
         ⟨draws, p + n * (6 + 2 * k)⟩) := by
  induction n with
  | zero => intro coords indices p; simp [initBenchLoop]
  | succ n ih =>
    intro coords indices p
    have hshift : ∀ i, p + 6 + 2 * k + i * (6 + 2 * k) = p + (i + 1) * (6 + 2 * k) := by
      intro i; ring
    simp only [initBenchLoop, randomRect_eq, BenchRNG.sampleCoordinates,
      sampleCoordinatesLoop_eq, indexCoordinates_eq, ih, List.nil_append,
      List.range_succ_eq_map, List.flatMap_cons, List.flatMap_map, List.append_assoc,
      List.map_append, hshift, Function.comp, Nat.succ_eq_add_one, Nat.zero_mul, Nat.add_zero]
    refine Prod.ext ?_ ?_
    · simp only [coordAt, Nat.add_assoc]
    · rfl

theorem initBench_eq (A : Arith F) (G : S2 F Point) (c : BenchConfig) (r : BenchRNG) :
    initBench A G c r =
      (workloadOfDraws A G c r.draws r.pos,
       ⟨r.draws, r.pos + c.B_NUM_REGIONS * (6 + 2 * (c.B_NUM_INSERTS / c.B_NUM_REGIONS))⟩) := by
  cases r with
  | mk draws p =>
    simp only [initBench, initBenchLoop_eq, workloadOfDraws, List.nil_append]

end GeneratorFacts

section WorkloadFacts
variable {F Point V : Type}

theorem length_flatMap_range {α : Type} (f : Nat → List α) (k : Nat)
    (hlen : ∀ i, (f i).length = k) (n : Nat) :
    ((List.range n).flatMap f).length = n * k := by
  induction n with
  | zero => simp
  | succ n ih =>
    rw [List.range_succ, List.flatMap_append, List.length_append, ih]
    simp [hlen, Nat.succ_mul]

theorem getElem?_flatMap_range {α : Type} (f : Nat → List α) (k : Nat)
    (hlen : ∀ i, (f i).length = k) (n i j : Nat) (hi : i < n) (hj : j < k) :
    ((List.range n).flatMap f)[i * k + j]? = (f i)[j]? := by
  induction n with
  | zero => omega
  | succ n ih =>
    rw [List.range_succ, List.flatMap_append]
    have hl := length_flatMap_range f k hlen n
    rcases Nat.lt_succ_iff_lt_or_eq.1 hi with h | h
    · have hlt : i * k + j < ((List.range n).flatMap f).length := by
        rw [hl]
        calc i * k + j < i * k + k := by omega
          _ = (i + 1) * k := by ring
          _ ≤ n * k := Nat.mul_le_mul_right k h
      rw [List.getElem?_append_left hlt]
      exact ih h
    · subst h
      rw [List.getElem?_append_right (by rw [hl]; omega), hl]
      simp

theorem workloadOfDraws_length (A : Arith F) (G : S2 F Point) (c : BenchConfig)
    (draws : Nat → Nat) (p0 : Nat) :
    (workloadOfDraws A G c draws p0).1.length
        = c.B_NUM_REGIONS * (c.B_NUM_INSERTS / c.B_NUM_REGIONS) ∧
    (workloadOfDraws A G c draws p0).2.length
        = c.B_NUM_REGIONS * (c.B_NUM_INSERTS / c.B_NUM_REGIONS) := by
  simp only [workloadOfDraws, List.length_map]
  have h := length_flatMap_range
    (fun i => (List.range (c.B_NUM_INSERTS / c.B_NUM_REGIONS)).map
      (fun j => coordAt A G draws
        (p0 + i * (6 + 2 * (c.B_NUM_INSERTS / c.B_NUM_REGIONS))) j))
    (c.B_NUM_INSERTS / c.B_NUM_REGIONS) (by intro i; simp) c.B_NUM_REGIONS
  exact ⟨h, h⟩

theorem initBench_lengths (A : Arith F) (G : S2 F Point) (c : BenchConfig) (r : BenchRNG) :
    (initBench A G c r).1.1.length = c.B_NUM_REGIONS * (c.B_NUM_INSERTS / c.B_NUM_REGIONS) ∧
    (initBench A G c r).1.2.length = c.B_NUM_REGIONS * (c.B_NUM_INSERTS / c.B_NUM_REGIONS) := by
  rw [initBench_eq]
  exact workloadOfDraws_length A G c r.draws r.pos

theorem workloadOfDraws_getElem? (A : Arith F) (G : S2 F Point) (c : BenchConfig)
    (draws : Nat → Nat) (p0 i j : Nat) (hi : i < c.B_NUM_REGIONS)
    (hj : j < c.B_NUM_INSERTS / c.B_NUM_REGIONS) :
    (workloadOfDraws A G c draws p0).1[i * (c.B_NUM_INSERTS / c.B_NUM_REGIONS) + j]?
      = some (coordAt A G draws
          (p0 + i * (6 + 2 * (c.B_NUM_INSERTS / c.B_NUM_REGIONS))) j) := by
  simp only [workloadOfDraws]
  rw [getElem?_flatMap_range _ (c.B_NUM_INSERTS / c.B_NUM_REGIONS) (by intro i; simp)
    c.B_NUM_REGIONS i j hi hj]
  simp [hj]

theorem coordAt_congr (A : Arith F) (G : S2 F Point) (d1 d2 : Nat → Nat) (base j : Nat)
    (h : ∀ n, base ≤ n → n < base + 6 + 2 * j + 2 → d1 n = d2 n) :
    coordAt A G d1 base j = coordAt A G d2 base j := by
  simp only [coordAt, regionAt]
  rw [h base (by omega) (by omega), h (base + 1) (by omega) (by omega),
    h (base + 2) (by omega) (by omega), h (base + 3) (by omega) (by omega),
    h (base + 4) (by omega) (by omega), h (base + 5) (by omega) (by omega),
    h (base + 6 + 2 * j) (by omega) (by omega), h (base + 6 + 2 * j + 1) (by omega) (by omega)]

theorem workloadOfDraws_congr (A : Arith F) (G : S2 F Point) (c : BenchConfig)
    (d1 d2 : Nat → Nat) (p0 : Nat)
    (h : ∀ n, n < c.B_NUM_REGIONS * (6 + 2 * (c.B_NUM_INSERTS / c.B_NUM_REGIONS)) →
      d1 (p0 + n) = d2 (p0 + n)) :
    workloadOfDraws A G c d1 p0 = workloadOfDraws A G c d2 p0 := by
  have hc : (workloadOfDraws A G c d1 p0).1 = (workloadOfDraws A G c d2 p0).1 := by
    simp only [workloadOfDraws]
    apply List.flatMap_congr
    intro i hi
    apply List.map_congr_left
    intro j hj
    rw [List.mem_range] at hi hj
    apply coordAt_congr
    intro n hn1 hn2
    have hle : (i + 1) * (6 + 2 * (c.B_NUM_INSERTS / c.B_NUM_REGIONS))
        ≤ c.B_NUM_REGIONS * (6 + 2 * (c.B_NUM_INSERTS / c.B_NUM_REGIONS)) :=
      Nat.mul_le_mul_right _ hi
    have hn : n = p0 + (n - p0) := by omega
    rw [hn]
    apply h
    rw [Nat.succ_mul] at hle
    omega
  have hk : (workloadOfDraws A G c d1 p0).2 = (workloadOfDraws A G c d2 p0).2 := by
    have e1 : (workloadOfDraws A G c d1 p0).2 = (workloadOfDraws A G c d1 p0).1.map (keyOf G c.B_S2_LEVEL) :=
      rfl
    have e2 : (workloadOfDraws A G c d2 p0).2 = (workloadOfDraws A G c d2 p0).1.map (keyOf G c.B_S2_LEVEL) :=
      rfl
    rw [e1, e2, hc]
  exact Prod.ext hc hk

theorem hashmapInsert_lookup (coords : List V) (indices : List Nat)
    (hlen : coords.length ≤ indices.length) (j : Nat) (hj : j < coords.length) :
    ∃ index, indices[j]? = some index ∧
      ∃ table, hashmapInsert coords indices = some table ∧
        ∃ vs, table index = some vs ∧ ∀ coord, coords[j]? = some coord → coord ∈ vs := by
  have hj2 : j < indices.length := by omega
  obtain ⟨t, ht, hspec⟩ := hashmapInsert_table coords indices hlen
  refine ⟨indices[j], List.getElem?_eq_getElem hj2, t, ht, valuesAt coords indices indices[j], ?_, ?_⟩
  · rw [hspec]
    have : (valuesAt coords indices indices[j]).isEmpty = false :=
      (valuesAt_isEmpty coords indices _).2 ⟨j, hj, List.getElem?_eq_getElem hj2⟩
    rw [this]; simp
  · intro coord hc
    exact (mem_valuesAt coords indices _ coord).2 ⟨j, hj, List.getElem?_eq_getElem hj2, hc⟩

theorem radixInsertLoop_eq {T : Type} (R : IRadix T (List V)) (indices : List Nat) (rt : T)
    (rest : List V) :
    ∀ i, i + rest.length ≤ indices.length → radixInsertLoop R indices rt rest i = some rt := by
  induction rest with
  | nil => intro i _; rfl
  | cons coord rest ih =>
    intro i h
    simp only [List.length_cons] at h
    have hi : i < indices.length := by omega
    simp only [radixInsertLoop, List.getElem?_eq_getElem hi]
    cases R.Get rt (cellToBytes indices[i]) <;> exact ih (i + 1) (by omega)

end WorkloadFacts

section IntConfigFacts
variable {F Point : Type}

theorem tdiv_toNat_eq_zero (a b : Int) (hb : 0 < b) (hab : a < b) : (Int.tdiv a b).toNat = 0 := by
  rcases Int.lt_or_le a 0 with ha | ha
  · have h1 : 0 ≤ Int.tdiv (-a) b := Int.tdiv_nonneg (by omega) (by omega)
    rw [Int.neg_tdiv] at h1
    omega
  · rw [Int.tdiv_eq_zero_of_lt ha hab]
    rfl

theorem initBenchInt_eq (A : Arith F) (G : S2 F Point) (c : IntConfig) (r : BenchRNG)
    (h : c.B_NUM_REGIONS ≠ 0) :
    initBenchInt A G c r =
      some (((List.range c.B_NUM_REGIONS.toNat).flatMap
          (fun i => (List.range (Int.tdiv c.B_NUM_INSERTS c.B_NUM_REGIONS).toNat).map
            (fun j => coordAt A G r.draws
              (r.pos + i * (6 + 2 * (Int.tdiv c.B_NUM_INSERTS c.B_NUM_REGIONS).toNat)) j)),
        ((List.range c.B_NUM_REGIONS.toNat).flatMap
          (fun i => (List.range (Int.tdiv c.B_NUM_INSERTS c.B_NUM_REGIONS).toNat).map
            (fun j => coordAt A G r.draws
              (r.pos + i * (6 + 2 * (Int.tdiv c.B_NUM_INSERTS c.B_NUM_REGIONS).toNat)) j))).map
          (keyOf G c.B_S2_LEVEL)),
        ⟨r.draws, r.pos + c.B_NUM_REGIONS.toNat *
          (6 + 2 * (Int.tdiv c.B_NUM_INSERTS c.B_NUM_REGIONS).toNat)⟩) := by
  cases r with
  | mk draws p =>
    simp only [initBenchInt, h, if_false, initBenchLoop_eq, List.nil_append]

/-- On natural-number constants with at least one region, `initBenchInt` is
`initBench`. -/
theorem initBenchInt_ofNat (A : Arith F) (G : S2 F Point) (c : BenchConfig) (r : BenchRNG)
    (h : c.B_NUM_REGIONS ≠ 0) :
    initBenchInt A G ⟨c.B_S2_LEVEL, c.B_NUM_REGIONS, c.B_NUM_INSERTS⟩ r
      = some (initBench A G c r) := by
  have h0 : ((c.B_NUM_REGIONS : Nat) : Int) ≠ 0 := by exact_mod_cast h
  simp only [initBenchInt, h0, if_false, initBench, ← Int.ofNat_tdiv, Int.toNat_ofNat]

theorem initBenchInt_spec (A : Arith F) (G : S2 F Point) (c : IntConfig) (r : BenchRNG)
    (h : c.B_NUM_REGIONS ≠ 0) :
    ∃ coords indices r1, initBenchInt A G c r = some ((coords, indices), r1) ∧
      coords.length
        = c.B_NUM_REGIONS.toNat * (Int.tdiv c.B_NUM_INSERTS c.B_NUM_REGIONS).toNat ∧
      indices = coords.map (fun coord => G.Parent (G.CellIDFromLatLng coord) c.B_S2_LEVEL) ∧
      (c.B_NUM_REGIONS < 0 ∨ c.B_NUM_INSERTS < c.B_NUM_REGIONS → coords = [] ∧ indices = []) := by
  have hlen := length_flatMap_range
    (fun i => (List.range (Int.tdiv c.B_NUM_INSERTS c.B_NUM_REGIONS).toNat).map
      (fun j => coordAt A G r.draws
        (r.pos + i * (6 + 2 * (Int.tdiv c.B_NUM_INSERTS c.B_NUM_REGIONS).toNat)) j))
    (Int.tdiv c.B_NUM_INSERTS c.B_NUM_REGIONS).toNat (by intro i; simp) c.B_NUM_REGIONS.toNat
  refine ⟨_, _, _, initBenchInt_eq A G c r h, hlen, rfl, ?_⟩
  intro hinv
  have hz : c.B_NUM_REGIONS.toNat * (Int.tdiv c.B_NUM_INSERTS c.B_NUM_REGIONS).toNat = 0 := by
    rcases Int.lt_or_le c.B_NUM_REGIONS 0 with hneg | hpos
    · have : c.B_NUM_REGIONS.toNat = 0 := by omega
      rw [this, Nat.zero_mul]
    · rcases hinv with hneg | hlt
      · omega
      · rw [tdiv_toNat_eq_zero _ _ (by omega) hlt, Nat.mul_zero]
  rw [hz] at hlen
  have hnil := List.length_eq_zero.1 hlen
  refine ⟨hnil, ?_⟩
  rw [hnil]; rfl

end IntConfigFacts

/-! ## Theorems -/

/-- C5, as the code has it: `cellToBytes(id)` is the fixed-width 8-byte
little-endian encoding of `id`: it has 8 bytes and byte `j` (`j < 8`) equals
`(id >> (8·j)) mod 256`, so the least significant byte comes first. -/
theorem cellToBytes_littleEndian (id j : Nat) (hj : j < 8) :
    (cellToBytes id).length = 8 ∧ (cellToBytes id)[j]? = some ((id >>> (8 * j)) % 256) := by
  refine ⟨rfl, ?_⟩
  have : j = 0 ∨ j = 1 ∨ j = 2 ∨ j = 3 ∨ j = 4 ∨ j = 5 ∨ j = 6 ∨ j = 7 := by omega
  rcases this with h | h | h | h | h | h | h | h <;> subst h <;>
    simp [cellToBytes, PutUint64LittleEndian]

theorem cellToBytes_littleEndian_witness :
    (3 : Nat) < 8 ∧ (cellToBytes 0x0102030405060708).length = 8 ∧
      (cellToBytes 0x0102030405060708)[3]? = some ((0x0102030405060708 >>> (8 * 3)) % 256) :=
  ⟨by decide, cellToBytes_littleEndian 0x0102030405060708 3 (by decide)⟩

/-- C5, as stated, fails: for the 64-bit key `1`, byte 0 of `cellToBytes(1)` is
`1`, not the most significant byte `(1 >> 56) mod 256 = 0`. -/
theorem cellToBytes_not_bigEndian :
    ¬ (∀ id j : Nat, id < 2 ^ 64 → j < 8 →
        (cellToBytes id)[j]? = some ((id >>> (8 * (7 - j))) % 256)) := by
  intro h
  have := h 1 0 (by norm_num) (by norm_num)
  revert this
  decide

/-- C8: for every generator state, `randomBits(53)` is the raw 63-bit draw
modulo `2^53` (so below `2^53`), `randomFloat64` returns `m · 2^-53` for that `m`, the result lies
in `[0, 1)` and is an integer multiple of `2^-53`, and exactly one draw is
consumed. -/
theorem randomFloat64_spec (r : BenchRNG) :
    (r.randomBits 53).1 = r.Int63.1 % 2 ^ 53 ∧ (r.randomBits 53).1 < 2 ^ 53 ∧
    (r.randomFloat64).1 = ((r.randomBits 53).1 : ℚ) * (2 : ℚ) ^ (-53 : Int) ∧
    0 ≤ (r.randomFloat64).1 ∧ (r.randomFloat64).1 < 1 ∧
    (∃ m : Int, (r.randomFloat64).1 = (m : ℚ) * (2 : ℚ) ^ (-53 : Int)) ∧
    (r.randomFloat64).2 = r.Int63.2 := by
  have hb := randomBits_eq r 53 (by norm_num)
  have hf := randomFloat64_eq r
  have hlt : (r.draws r.pos % 2 ^ 63) % 2 ^ 53 < 2 ^ 53 := Nat.mod_lt _ (by norm_num)
  have hval : (r.randomFloat64).1 = ((r.randomBits 53).1 : ℚ) * (2 : ℚ) ^ (-53 : Int) := by
    rw [hf, hb, zpow_neg, div_eq_mul_inv]
    norm_cast
  refine ⟨hb, by rw [hb]; exact hlt, hval, ?_, ?_, ⟨((r.randomBits 53).1 : Int), ?_⟩, ?_⟩
  · rw [hf]; positivity
  · rw [hf]
    simp only
    rw [div_lt_one (by positivity)]
    exact_mod_cast hlt
  · rw [hval]; norm_cast
  · rw [hf]; rfl

section InsertClaims
variable {V : Type}

/-- C3: when `indices` is at least as long as `coords`, `hashmapInsert` returns a
table that holds `k` exactly when `indices[i] = k` for some `i < len(coords)`,
and the list stored under `k` is the `coords[i]` with `indices[i] = k` in
increasing `i`. -/
theorem hashmapInsert_spec (coords : List V) (indices : List Nat)
    (h : coords.length ≤ indices.length) (k : Nat) :
    ∃ table, hashmapInsert coords indices = some table ∧
      ((table k).isSome ↔ ∃ i, i < coords.length ∧ indices[i]? = some k) ∧
      (∀ vs, table k = some vs → vs = valuesAt coords indices k) := by
  obtain ⟨t, ht, hspec⟩ := hashmapInsert_table coords indices h
  refine ⟨t, ht, ?_, ?_⟩
  · rw [← valuesAt_isEmpty, hspec k]
    cases hv : (valuesAt coords indices k).isEmpty <;> simp
  · intro vs hvs
    rw [hspec k] at hvs
    cases hv : (valuesAt coords indices k).isEmpty
    · rw [hv] at hvs; simpa using hvs.symm
    · rw [hv] at hvs; simp at hvs

theorem hashmapInsert_spec_witness :
    ([10, 20, 30] : List Nat).length ≤ [7, 8, 7, 9].length ∧
    ∃ table, hashmapInsert [10, 20, 30] [7, 8, 7, 9] = some table ∧
      ((table 7).isSome ↔ ∃ i, i < [10, 20, 30].length ∧ [7, 8, 7, 9][i]? = some 7) ∧
      (∀ vs, table 7 = some vs → vs = valuesAt [10, 20, 30] [7, 8, 7, 9] 7) :=
  ⟨by decide, hashmapInsert_spec [10, 20, 30] [7, 8, 7, 9] (by decide) 7⟩

end InsertClaims

section Claims
variable {F Point : Type}

/-- C1: for every generator state, `initBench` returns a coordinate list and a
cell-key list of `numRegions × (totalInserts / numRegions)` elements each, so
both have the same length; that is 1,000,000 for the configured constants and
10 for 2 regions and 10 inserts. -/
theorem initBench_length (A : Arith F) (G : S2 F Point) (c : BenchConfig) (r : BenchRNG) :
    ((initBench A G c r).1.1.length = c.B_NUM_REGIONS * (c.B_NUM_INSERTS / c.B_NUM_REGIONS) ∧
     (initBench A G c r).1.2.length = c.B_NUM_REGIONS * (c.B_NUM_INSERTS / c.B_NUM_REGIONS) ∧
     (initBench A G c r).1.1.length = (initBench A G c r).1.2.length) ∧
    ((initBench A G benchConstants r).1.1.length = 1000000 ∧
     (initBench A G benchConstants r).1.2.length = 1000000) ∧
    ((initBench A G ⟨24, 2, 10⟩ r).1.1.length = 10 ∧
     (initBench A G ⟨24, 2, 10⟩ r).1.2.length = 10) := by
  have h := initBench_lengths A G c r
  refine ⟨⟨h.1, h.2, h.1.trans h.2.symm⟩, ?_, ?_⟩
  · have hb := initBench_lengths A G benchConstants r
    simpa [benchConstants] using hb
  · have hb := initBench_lengths A G ⟨24, 2, 10⟩ r
    simpa using hb

/-- C2: for every seed, two runs of `initBench(NewBenchRNG(seed))`, each over its
own seeded source, return the same coordinate list and the same cell-key list
as soon as the two sources deliver the same draws for that seed, as the
deterministic `rand.NewSource` does; only the first
`numRegions · (6 + 2·(totalInserts / numRegions))` draws matter. -/
theorem initBench_deterministic (A : Arith F) (G : S2 F Point) (c : BenchConfig)
    (source1 source2 : Int → Nat → Nat) (seed : Int)
    (h : ∀ n, n < c.B_NUM_REGIONS * (6 + 2 * (c.B_NUM_INSERTS / c.B_NUM_REGIONS)) →
      source1 seed n = source2 seed n) :
    (initBench A G c (NewBenchRNG source1 seed)).1.1
        = (initBench A G c (NewBenchRNG source2 seed)).1.1 ∧
    (initBench A G c (NewBenchRNG source1 seed)).1.2
        = (initBench A G c (NewBenchRNG source2 seed)).1.2 := by
  have hw : workloadOfDraws A G c (source1 seed) 0 = workloadOfDraws A G c (source2 seed) 0 := by
    apply workloadOfDraws_congr
    intro n hn
    simpa using h n hn
  rw [initBench_eq, initBench_eq]
  simp only [NewBenchRNG]
  rw [hw]
  exact ⟨rfl, rfl⟩

theorem initBench_deterministic_witness :
    (∀ n, n < (⟨24, 2, 10⟩ : BenchConfig).B_NUM_REGIONS *
        (6 + 2 * ((⟨24, 2, 10⟩ : BenchConfig).B_NUM_INSERTS /
          (⟨24, 2, 10⟩ : BenchConfig).B_NUM_REGIONS)) →
      affineSource 0 n = affineSource 0 n) ∧
    (initBench planeArith planeS2 ⟨24, 2, 10⟩ (NewBenchRNG affineSource 0)).1.1
        = (initBench planeArith planeS2 ⟨24, 2, 10⟩ (NewBenchRNG affineSource 0)).1.1 ∧
    (initBench planeArith planeS2 ⟨24, 2, 10⟩ (NewBenchRNG affineSource 0)).1.2
        = (initBench planeArith planeS2 ⟨24, 2, 10⟩ (NewBenchRNG affineSource 0)).1.2 :=
  ⟨fun _ _ => rfl,
   initBench_deterministic planeArith planeS2 ⟨24, 2, 10⟩ affineSource affineSource 0
     (fun _ _ => rfl)⟩

/-- C6: with `k = totalInserts / numRegions`, `initBench` started at draw number
`p` returns exactly the workload read off the draws in the order corner A
(x, y, z), corner B (x, y, z), then per coordinate the latitude-sine draw and
the longitude draw; it leaves the generator at draw number
`p + numRegions · (6 + 2k)`; and coordinate `j` of region `i` is made from the
region of draws `p + i·(6+2k) .. p + i·(6+2k) + 5` and from draws number
`p + i·(6+2k) + 6 + 2j` and `p + i·(6+2k) + 6 + 2j + 1`. -/
theorem initBench_draw_order (A : Arith F) (G : S2 F Point) (c : BenchConfig) (r : BenchRNG) :
    initBench A G c r =
      (workloadOfDraws A G c r.draws r.pos,
       ⟨r.draws, r.pos + c.B_NUM_REGIONS * (6 + 2 * (c.B_NUM_INSERTS / c.B_NUM_REGIONS))⟩) ∧
    ∀ i j, i < c.B_NUM_REGIONS → j < c.B_NUM_INSERTS / c.B_NUM_REGIONS →
      (initBench A G c r).1.1[i * (c.B_NUM_INSERTS / c.B_NUM_REGIONS) + j]? =
        some (coordOfDraws A G
          (rectOfDraws A G
            (r.draws (r.pos + i * (6 + 2 * (c.B_NUM_INSERTS / c.B_NUM_REGIONS))))
            (r.draws (r.pos + i * (6 + 2 * (c.B_NUM_INSERTS / c.B_NUM_REGIONS)) + 1))
            (r.draws (r.pos + i * (6 + 2 * (c.B_NUM_INSERTS / c.B_NUM_REGIONS)) + 2))
            (r.draws (r.pos + i * (6 + 2 * (c.B_NUM_INSERTS / c.B_NUM_REGIONS)) + 3))
            (r.draws (r.pos + i * (6 + 2 * (c.B_NUM_INSERTS / c.B_NUM_REGIONS)) + 4))
            (r.draws (r.pos + i * (6 + 2 * (c.B_NUM_INSERTS / c.B_NUM_REGIONS)) + 5)))
          (r.draws (r.pos + i * (6 + 2 * (c.B_NUM_INSERTS / c.B_NUM_REGIONS)) + 6 + 2 * j))
          (r.draws (r.pos + i * (6 + 2 * (c.B_NUM_INSERTS / c.B_NUM_REGIONS)) + 6 + 2 * j + 1))) := by
  refine ⟨initBench_eq A G c r, ?_⟩
  intro i j hi hj
  rw [initBench_eq]
  exact workloadOfDraws_getElem? A G c r.draws r.pos i j hi hj

theorem initBench_draw_order_witness :
    (1 : Nat) < 2 ∧ (3 : Nat) < 10 / 2 ∧
    (initBench planeArith planeS2 ⟨24, 2, 10⟩ ⟨affineSource 0, 0⟩).1.1[1 * (10 / 2) + 3]? =
      some (coordOfDraws planeArith planeS2
        (rectOfDraws planeArith planeS2
          (affineSource 0 (0 + 1 * (6 + 2 * (10 / 2))))
          (affineSource 0 (0 + 1 * (6 + 2 * (10 / 2)) + 1))
          (affineSource 0 (0 + 1 * (6 + 2 * (10 / 2)) + 2))
          (affineSource 0 (0 + 1 * (6 + 2 * (10 / 2)) + 3))
          (affineSource 0 (0 + 1 * (6 + 2 * (10 / 2)) + 4))
          (affineSource 0 (0 + 1 * (6 + 2 * (10 / 2)) + 5)))
        (affineSource 0 (0 + 1 * (6 + 2 * (10 / 2)) + 6 + 2 * 3))
        (affineSource 0 (0 + 1 * (6 + 2 * (10 / 2)) + 6 + 2 * 3 + 1))) :=
  ⟨by decide, by decide,
   (initBench_draw_order planeArith planeS2 ⟨24, 2, 10⟩ ⟨affineSource 0, 0⟩).2 1 3
     (by decide) (by decide)⟩

/-- C10: for the workload `(coords, indices)` returned by `initBench` and every
position `j < len(coords)`, the read `indices[j]` is in bounds, `hashmapInsert`
returns a table, and that table holds `indices[j]` with a value list that
contains `coords[j]`. -/
theorem lookup_key_present (A : Arith F) (G : S2 F Point) (c : BenchConfig) (r : BenchRNG)
    (j : Nat) (hj : j < (initBench A G c r).1.1.length) :
    ∃ index, (initBench A G c r).1.2[j]? = some index ∧
      ∃ table, hashmapInsert (initBench A G c r).1.1 (initBench A G c r).1.2 = some table ∧
        ∃ vs, table index = some vs ∧
          ∀ coord, (initBench A G c r).1.1[j]? = some coord → coord ∈ vs := by
  have h := initBench_lengths A G c r
  exact hashmapInsert_lookup _ _ (by rw [h.1, h.2]) j hj

theorem lookup_key_present_witness :
    7 < (initBench planeArith planeS2 ⟨24, 2, 10⟩ (NewBenchRNG affineSource 0)).1.1.length ∧
    ∃ index, (initBench planeArith planeS2 ⟨24, 2, 10⟩ (NewBenchRNG affineSource 0)).1.2[7]?
        = some index ∧
      ∃ table, hashmapInsert
          (initBench planeArith planeS2 ⟨24, 2, 10⟩ (NewBenchRNG affineSource 0)).1.1
          (initBench planeArith planeS2 ⟨24, 2, 10⟩ (NewBenchRNG affineSource 0)).1.2
            = some table ∧
        ∃ vs, table index = some vs ∧
          ∀ coord,
            (initBench planeArith planeS2 ⟨24, 2, 10⟩ (NewBenchRNG affineSource 0)).1.1[7]?
              = some coord → coord ∈ vs :=
  have hlen : 7 < (initBench planeArith planeS2 ⟨24, 2, 10⟩
      (NewBenchRNG affineSource 0)).1.1.length := by
    rw [(initBench_lengths planeArith planeS2 ⟨24, 2, 10⟩ (NewBenchRNG affineSource 0)).1]
    decide
  ⟨hlen, lookup_key_present planeArith planeS2 ⟨24, 2, 10⟩ (NewBenchRNG affineSource 0) 7 hlen⟩

end Claims

section SamplingClaims

theorem unitOfDraw_nonneg (d : Nat) : 0 ≤ unitOfDraw d := by
  unfold unitOfDraw; positivity

theorem unitOfDraw_lt_one (d : Nat) : unitOfDraw d < 1 := by
  unfold unitOfDraw
  rw [div_lt_one (by positivity)]
  have : (d % 2 ^ 63) % 2 ^ 53 < 2 ^ 53 := Nat.mod_lt _ (by norm_num)
  exact_mod_cast this

theorem interpolate_bounds (lo hi x : ℝ) (h : lo ≤ hi) (hx0 : 0 ≤ x) (hx1 : x < 1) :
    lo ≤ lo + x * (hi - lo) ∧ lo + x * (hi - lo) ≤ hi ∧ (lo < hi → lo + x * (hi - lo) < hi) := by
  have hd : 0 ≤ hi - lo := by linarith
  refine ⟨?_, ?_, ?_⟩
  · nlinarith [mul_nonneg hx0 hd]
  · nlinarith [mul_nonneg (by linarith : (0 : ℝ) ≤ 1 - x) hd]
  · intro hlt
    nlinarith [mul_pos (by linarith : (0 : ℝ) < 1 - x) (by linarith : (0 : ℝ) < hi - lo)]

theorem exactLength_eq (sin asin : ℝ → ℝ) (pi : ℝ) (i : Interval ℝ) (h : i.Lo ≤ i.Hi) :
    i.Length (exactArith ℝ sin asin pi) = i.Hi - i.Lo := by
  have hd : (0 : ℝ) ≤ i.Hi - i.Lo := by linarith
  simp [Interval.Length, exactArith, hd]

/-- C7: in exact real arithmetic, for every rectangle with
`−π/2 ≤ Lat.Lo ≤ Lat.Hi ≤ π/2` and `Lng.Lo ≤ Lng.Hi` and every generator state,
the latitude and longitude that `samplePointFromRect` computes before
normalisation satisfy `Lat.Lo ≤ lat ≤ Lat.Hi` and `Lng.Lo ≤ lng ≤ Lng.Hi`; the
latitude is `asin(u)` for a `u` with `sin(Lat.Lo) ≤ u ≤ sin(Lat.Hi)`; and each
upper bound is strict when its interval is not degenerate. -/
theorem sampleLatLng_in_rect (rect : Rect ℝ) (r : BenchRNG)
    (h1 : -(Real.pi / 2) ≤ rect.Lat.Lo) (h2 : rect.Lat.Lo ≤ rect.Lat.Hi)
    (h3 : rect.Lat.Hi ≤ Real.pi / 2) (h4 : rect.Lng.Lo ≤ rect.Lng.Hi) :
    (rect.Lat.Lo ≤ (r.sampleLatLngFromRect (exactArith ℝ Real.sin Real.arcsin Real.pi) rect).1.Lat ∧
     (r.sampleLatLngFromRect (exactArith ℝ Real.sin Real.arcsin Real.pi) rect).1.Lat ≤ rect.Lat.Hi ∧
     (rect.Lat.Lo < rect.Lat.Hi →
       (r.sampleLatLngFromRect (exactArith ℝ Real.sin Real.arcsin Real.pi) rect).1.Lat
         < rect.Lat.Hi)) ∧
    (rect.Lng.Lo ≤ (r.sampleLatLngFromRect (exactArith ℝ Real.sin Real.arcsin Real.pi) rect).1.Lng ∧
     (r.sampleLatLngFromRect (exactArith ℝ Real.sin Real.arcsin Real.pi) rect).1.Lng ≤ rect.Lng.Hi ∧
     (rect.Lng.Lo < rect.Lng.Hi →
       (r.sampleLatLngFromRect (exactArith ℝ Real.sin Real.arcsin Real.pi) rect).1.Lng
         < rect.Lng.Hi)) ∧
    (∃ u : ℝ,
      (r.sampleLatLngFromRect (exactArith ℝ Real.sin Real.arcsin Real.pi) rect).1.Lat
        = Real.arcsin u ∧
      u = (r.randomUniformFloat64 (exactArith ℝ Real.sin Real.arcsin Real.pi)
            (Real.sin rect.Lat.Lo) (Real.sin rect.Lat.Hi)).1 ∧
      Real.sin rect.Lat.Lo ≤ u ∧ u ≤ Real.sin rect.Lat.Hi ∧
      (rect.Lat.Lo < rect.Lat.Hi → u < Real.sin rect.Lat.Hi)) := by
  cases r with
  | mk draws p =>
  have hLo : rect.Lat.Lo ≤ Real.pi / 2 := le_trans h2 h3
  have hHi : -(Real.pi / 2) ≤ rect.Lat.Hi := le_trans h1 h2
  have hs : Real.sin rect.Lat.Lo ≤ Real.sin rect.Lat.Hi :=
    Real.sin_le_sin_of_le_of_le_pi_div_two h1 h3 h2
  have hx0 : (0 : ℝ) ≤ ((unitOfDraw (draws p) : ℚ) : ℝ) := by
    exact_mod_cast unitOfDraw_nonneg (draws p)
  have hx1 : ((unitOfDraw (draws p) : ℚ) : ℝ) < 1 := by
    exact_mod_cast unitOfDraw_lt_one (draws p)
  have hy0 : (0 : ℝ) ≤ ((unitOfDraw (draws (p + 1)) : ℚ) : ℝ) := by
    exact_mod_cast unitOfDraw_nonneg (draws (p + 1))
  have hy1 : ((unitOfDraw (draws (p + 1)) : ℚ) : ℝ) < 1 := by
    exact_mod_cast unitOfDraw_lt_one (draws (p + 1))
  obtain ⟨hu1, hu2, hu3⟩ := interpolate_bounds _ _ _ hs hx0 hx1
  obtain ⟨hl1, hl2, hl3⟩ := interpolate_bounds _ _ _ h4 hy0 hy1
  have hlat : (BenchRNG.sampleLatLngFromRect (exactArith ℝ Real.sin Real.arcsin Real.pi)
      ⟨draws, p⟩ rect).1.Lat
      = Real.arcsin (Real.sin rect.Lat.Lo +
          ((unitOfDraw (draws p) : ℚ) : ℝ) * (Real.sin rect.Lat.Hi - Real.sin rect.Lat.Lo)) := by
    rw [sampleLatLngFromRect_eq]; rfl
  have hlng : (BenchRNG.sampleLatLngFromRect (exactArith ℝ Real.sin Real.arcsin Real.pi)
      ⟨draws, p⟩ rect).1.Lng
      = rect.Lng.Lo + ((unitOfDraw (draws (p + 1)) : ℚ) : ℝ) * (rect.Lng.Hi - rect.Lng.Lo) := by
    rw [sampleLatLngFromRect_eq]
    simp only [latLngOfDraws, exactLength_eq _ _ _ _ h4]
    rfl
  have hu : (BenchRNG.randomUniformFloat64 (exactArith ℝ Real.sin Real.arcsin Real.pi)
      ⟨draws, p⟩ (Real.sin rect.Lat.Lo) (Real.sin rect.Lat.Hi)).1
      = Real.sin rect.Lat.Lo +
          ((unitOfDraw (draws p) : ℚ) : ℝ) * (Real.sin rect.Lat.Hi - Real.sin rect.Lat.Lo) := by
    rw [randomUniformFloat64_eq]; rfl
  have hlo : Real.arcsin (Real.sin rect.Lat.Lo) = rect.Lat.Lo := Real.arcsin_sin h1 hLo
  have hhi : Real.arcsin (Real.sin rect.Lat.Hi) = rect.Lat.Hi := Real.arcsin_sin hHi h3
  refine ⟨⟨?_, ?_, ?_⟩, ⟨?_, ?_, ?_⟩, ⟨_, hlat, hu.symm, hu1, hu2, ?_⟩⟩
  · rw [hlat]
    calc rect.Lat.Lo = Real.arcsin (Real.sin rect.Lat.Lo) := hlo.symm
      _ ≤ _ := Real.monotone_arcsin hu1
  · rw [hlat]
    calc _ ≤ Real.arcsin (Real.sin rect.Lat.Hi) := Real.monotone_arcsin hu2
      _ = rect.Lat.Hi := hhi
  · intro hlt
    have hslt : Real.sin rect.Lat.Lo < Real.sin rect.Lat.Hi :=
      Real.sin_lt_sin_of_lt_of_le_pi_div_two h1 h3 hlt
    have hult := hu3 hslt
    rw [hlat]
    have hmem1 : Real.sin rect.Lat.Lo +
        ((unitOfDraw (draws p) : ℚ) : ℝ) * (Real.sin rect.Lat.Hi - Real.sin rect.Lat.Lo)
        ∈ Set.Icc (-1 : ℝ) 1 :=
      ⟨le_trans (Real.neg_one_le_sin _) hu1, le_trans hu2 (Real.sin_le_one _)⟩
    have hmem2 : Real.sin rect.Lat.Hi ∈ Set.Icc (-1 : ℝ) 1 :=
      ⟨Real.neg_one_le_sin _, Real.sin_le_one _⟩
    calc _ < Real.arcsin (Real.sin rect.Lat.Hi) := Real.strictMonoOn_arcsin hmem1 hmem2 hult
      _ = rect.Lat.Hi := hhi
  · rw [hlng]; exact hl1
  · rw [hlng]; exact hl2
  · intro hlt; rw [hlng]; exact hl3 hlt
  · intro hlt
    exact hu3 (Real.sin_lt_sin_of_lt_of_le_pi_div_two h1 h3 hlt)

end SamplingClaims

section MoreClaims
variable {F Point : Type}

theorem sampleLatLng_in_rect_witness :
    (-(Real.pi / 2) ≤ (0 : ℝ) ∧ (0 : ℝ) ≤ 1 ∧ (1 : ℝ) ≤ Real.pi / 2 ∧ (-1 : ℝ) ≤ 2) ∧
    ((0 : ℝ) ≤ ((NewBenchRNG affineSource 0).sampleLatLngFromRect
        (exactArith ℝ Real.sin Real.arcsin Real.pi) ⟨⟨0, 1⟩, ⟨-1, 2⟩⟩).1.Lat ∧
     ((NewBenchRNG affineSource 0).sampleLatLngFromRect
        (exactArith ℝ Real.sin Real.arcsin Real.pi) ⟨⟨0, 1⟩, ⟨-1, 2⟩⟩).1.Lat ≤ 1 ∧
     ((0 : ℝ) < 1 →
       ((NewBenchRNG affineSource 0).sampleLatLngFromRect
        (exactArith ℝ Real.sin Real.arcsin Real.pi) ⟨⟨0, 1⟩, ⟨-1, 2⟩⟩).1.Lat < 1)) ∧
    ((-1 : ℝ) ≤ ((NewBenchRNG affineSource 0).sampleLatLngFromRect
        (exactArith ℝ Real.sin Real.arcsin Real.pi) ⟨⟨0, 1⟩, ⟨-1, 2⟩⟩).1.Lng ∧
     ((NewBenchRNG affineSource 0).sampleLatLngFromRect
        (exactArith ℝ Real.sin Real.arcsin Real.pi) ⟨⟨0, 1⟩, ⟨-1, 2⟩⟩).1.Lng ≤ 2 ∧
     ((-1 : ℝ) < 2 →
       ((NewBenchRNG affineSource 0).sampleLatLngFromRect
        (exactArith ℝ Real.sin Real.arcsin Real.pi) ⟨⟨0, 1⟩, ⟨-1, 2⟩⟩).1.Lng < 2)) :=
  have hpi : (3 : ℝ) < Real.pi := Real.pi_gt_three
  have a1 : -(Real.pi / 2) ≤ (0 : ℝ) := by linarith
  have a2 : (0 : ℝ) ≤ 1 := by norm_num
  have a3 : (1 : ℝ) ≤ Real.pi / 2 := by linarith
  have a4 : (-1 : ℝ) ≤ 2 := by norm_num
  have h := sampleLatLng_in_rect ⟨⟨0, 1⟩, ⟨-1, 2⟩⟩ (NewBenchRNG affineSource 0) a1 a2 a3 a4
  ⟨⟨a1, a2, a3, a4⟩, h.1, h.2.1⟩

/-- C9, as stated, fails: with 2 regions and 1 insert (`totalInserts < numRegions`)
and with -3 regions (`numRegions ≤ 0`) `initBench` returns the empty workload
instead of failing, and with level 31 (outside `0..30`) it returns a workload
of 10 pairs. -/
theorem initBench_returns_on_invalid_parameters :
    ((1 : Int) < 2 ∧
      (initBenchInt planeArith planeS2 ⟨24, 2, 1⟩ (NewBenchRNG affineSource 0)).map
        (fun w => w.1) = some ([], [])) ∧
    ((-3 : Int) ≤ 0 ∧
      (initBenchInt planeArith planeS2 ⟨24, -3, 10⟩ (NewBenchRNG affineSource 0)).map
        (fun w => w.1) = some ([], [])) ∧
    ((30 : Int) < 31 ∧
      (initBenchInt planeArith planeS2 ⟨31, 2, 10⟩ (NewBenchRNG affineSource 0)).map
        (fun w => (w.1.1.length, w.1.2.length)) = some (10, 10)) := by
  refine ⟨⟨by decide, ?_⟩, ⟨by decide, ?_⟩, by decide, ?_⟩
  · obtain ⟨coords, indices, r1, h, _, _, he⟩ :=
      initBenchInt_spec planeArith planeS2 ⟨24, 2, 1⟩ (NewBenchRNG affineSource 0) (by decide)
    obtain ⟨hc, hi⟩ := he (Or.inr (by decide))
    rw [h, hc, hi]; rfl
  · obtain ⟨coords, indices, r1, h, _, _, he⟩ :=
      initBenchInt_spec planeArith planeS2 ⟨24, -3, 10⟩ (NewBenchRNG affineSource 0) (by decide)
    obtain ⟨hc, hi⟩ := he (Or.inl (by decide))
    rw [h, hc, hi]; rfl
  · obtain ⟨coords, indices, r1, h, hl, hk, _⟩ :=
      initBenchInt_spec planeArith planeS2 ⟨31, 2, 10⟩ (NewBenchRNG affineSource 0) (by decide)
    have hl2 : coords.length = 10 := by rw [hl]; decide
    have hi2 : indices.length = 10 := by rw [hk, List.length_map, hl2]
    rw [h]
    simp [hl2, hi2]

/-- C9, as the code has it: `initBench` checks no parameter and has no
`InvalidParameter` failure. For every number of regions other than 0, every
number of inserts and every level (any integers, negative ones and levels
outside `0..30` included) and every generator state it returns a workload; the
workload has `max(numRegions, 0) × max(totalInserts / numRegions, 0)` pairs
(truncated division); every key is `CellIDFromLatLng(coord).Parent(level)` with
the level passed on as configured; and the workload is empty when
`numRegions < 0` or `totalInserts < numRegions`. -/
theorem initBench_total (A : Arith F) (G : S2 F Point) (c : IntConfig) (r : BenchRNG)
    (h : c.B_NUM_REGIONS ≠ 0) :
    ∃ coords indices r1, initBenchInt A G c r = some ((coords, indices), r1) ∧
      coords.length
        = c.B_NUM_REGIONS.toNat * (Int.tdiv c.B_NUM_INSERTS c.B_NUM_REGIONS).toNat ∧
      indices = coords.map (fun coord => G.Parent (G.CellIDFromLatLng coord) c.B_S2_LEVEL) ∧
      (c.B_NUM_REGIONS < 0 ∨ c.B_NUM_INSERTS < c.B_NUM_REGIONS → coords = [] ∧ indices = []) :=
  initBenchInt_spec A G c r h

theorem initBench_total_witness :
    (⟨31, 2, 1⟩ : IntConfig).B_NUM_REGIONS ≠ 0 ∧
    ∃ coords indices r1,
      initBenchInt planeArith planeS2 ⟨31, 2, 1⟩ (NewBenchRNG affineSource 0)
        = some ((coords, indices), r1) ∧
      coords.length = (⟨31, 2, 1⟩ : IntConfig).B_NUM_REGIONS.toNat *
        (Int.tdiv (⟨31, 2, 1⟩ : IntConfig).B_NUM_INSERTS
          (⟨31, 2, 1⟩ : IntConfig).B_NUM_REGIONS).toNat ∧
      indices = coords.map
        (fun coord => planeS2.Parent (planeS2.CellIDFromLatLng coord)
          (⟨31, 2, 1⟩ : IntConfig).B_S2_LEVEL) ∧
      ((⟨31, 2, 1⟩ : IntConfig).B_NUM_REGIONS < 0 ∨
        (⟨31, 2, 1⟩ : IntConfig).B_NUM_INSERTS < (⟨31, 2, 1⟩ : IntConfig).B_NUM_REGIONS →
        coords = [] ∧ indices = []) :=
  ⟨by decide,
   initBench_total planeArith planeS2 ⟨31, 2, 1⟩ (NewBenchRNG affineSource 0) (by decide)⟩

/-- C4 fails on the code: for the one-pair workload `coords = [(0, 0)]`,
`indices = [7]`, `hashmapInsert` stores `[(0, 0)]` under key 7, while
`radixInsert` returns the tree `iradix.New()` unchanged, in which
`cellToBytes(7)` is not found. -/
theorem radixInsert_returns_empty_tree :
    (∃ table, hashmapInsert [(⟨0, 0⟩ : LatLng ℚ)] [7] = some table ∧
      table 7 = some [⟨0, 0⟩]) ∧
    radixInsert (funRadix (List (LatLng ℚ))) [⟨0, 0⟩] [7]
      = some (funRadix (List (LatLng ℚ))).New ∧
    (funRadix (List (LatLng ℚ))).Get (funRadix (List (LatLng ℚ))).New (cellToBytes 7) = none :=
  ⟨⟨_, rfl, rfl⟩, rfl, rfl⟩

end MoreClaims

end S2Bench
